import Mathlib

/-!
# Verification of the langgraph-learning example graphs

A shallow embedding of the graph-based state-machine execution engine
(merge semantics, step loop, interrupts, checkpoint store) together with
the four example graphs of the repository (`basic_graph.py`,
`conditional_graph.py`, `human_in_loop.py`, `ai_workflow.py`), translated
from the Python sources.  The engine itself lives in the langgraph
library, outside the repository's own files, so its operations are
modelled from the specification (sections 3, 4.1, 4.3, 4.4); every node
function, router function, routing table, graph wiring and test input is
translated directly from the Python sources.
-/

namespace LGr

/-- Values stored in a workflow State: Python strings, booleans, floats
(the examples only use exactly representable amounts, modelled as
rationals) and nested dictionaries. -/
inductive Val : Type where
  | vstr (s : String)
  | vbool (b : Bool)
  | vnum (q : Rat)
  | vdict (d : List (String × Val))

/-- A State: an ordered mapping from field name to value. -/
abbrev StateMap := List (String × Val)

/-- A node's returned sub-mapping of changed fields. -/
abbrev UpdMap := List (String × Val)

/-- Look a key up in an ordered mapping (first binding wins). -/
def getVal : StateMap → String → Option Val
  | [], _ => none
  | (k1, v1) :: t, k => if k1 = k then some v1 else getVal t k

/-- Overwrite the value stored at a key, leaving other keys untouched. -/
def setKey : StateMap → String → Val → StateMap
  | [], _, _ => []
  | (k1, v1) :: t, k, v =>
    if k1 = k then (k, v) :: setKey t k v else (k1, v1) :: setKey t k v

/-- Run-time errors of the engine. -/
inductive EngineError where
  | unknownField (k : String)
  | routingError (label : String)

/-- Modelled from the spec: `merge(current, partial)` (section 4.1) —
each key present in the sub-mapping overwrites the corresponding field,
keys absent from it are untouched, and a key not declared in the schema
is an `UnknownFieldError`. -/
def mergeState (schema : List String) : StateMap → UpdMap → Except EngineError StateMap
  | s, [] => .ok s
  | s, (k, v) :: rest =>
    if schema.contains k then mergeState schema (setKey s k v) rest
    else .error (.unknownField k)

/-- Read a string field (Python `state[k]` on a string-valued field). -/
def getStr (s : StateMap) (k : String) : String :=
  match getVal s k with
  | some (.vstr v) => v
  | _ => ""

/-- Read a boolean field. -/
def getBool (s : StateMap) (k : String) : Bool :=
  match getVal s k with
  | some (.vbool b) => b
  | _ => false

/-- Read a numeric field. -/
def getNum (s : StateMap) (k : String) : Rat :=
  match getVal s k with
  | some (.vnum q) => q
  | _ => 0

/-- Read a dictionary field. -/
def getDictD (s : StateMap) (k : String) : List (String × Val) :=
  match getVal s k with
  | some (.vdict d) => d
  | _ => []

/-- An outgoing transition of a node: a static edge to a node, the END
marker, or a conditional edge carrying a router function and its routing
table. -/
inductive Transition where
  | direct (dest : String)
  | toEnd
  | cond (router : StateMap → String) (table : List (String × String))

/-- Modelled from the spec: resolving a transition (section 4.3 step 2d) —
a static edge is fixed; a conditional edge evaluates the router on the
current State and looks the label up in the routing table, a missing
label failing with `RoutingError`. -/
def resolve : Transition → StateMap → Except EngineError (Option String)
  | .direct d, _ => .ok (some d)
  | .toEnd, _ => .ok none
  | .cond router table, s =>
    match table.find? (fun kv => kv.1 == router s) with
    | some kv => .ok (some kv.2)
    | none => .error (.routingError (router s))

/-- A compiled graph: the declared schema with its default values, the
first node after START, the node functions and the transition of each
node. -/
structure GraphDef where
  schema : StateMap
  entry : String
  nodeFn : String → StateMap → UpdMap
  trans : String → Transition

/-- The field names declared in a graph's schema. -/
def gKeys (g : GraphDef) : List String := g.schema.map Prod.fst

/-- Run status of a checkpoint (section 3, Checkpoint). -/
inductive RStatus where
  | running
  | paused
  | completed
  | failed
deriving DecidableEq

/-- What one engine run returns: the resulting State, the run status,
the pending (or terminal) node, the error if any, and the trace of
executed nodes, each paired with the State it received. -/
structure RunResult where
  state : StateMap
  status : RStatus
  nextNode : String
  error : Option EngineError
  trace : List (String × StateMap)

/-- Per-thread persisted snapshot (section 3, Checkpoint). -/
structure Checkpoint where
  state : StateMap
  nextNode : String
  status : RStatus

/-- The checkpoint store, keyed by thread identifier (last write wins:
the freshest binding is in front). -/
abbrev Store := List (String × Checkpoint)

/-- Load the checkpoint of a thread identifier. -/
def storeGet (σ : Store) (tid : String) : Option Checkpoint :=
  match σ.find? (fun kv => kv.1 == tid) with
  | some kv => some kv.2
  | none => none

/-- Save a checkpoint for a thread identifier. -/
def storeSet (σ : Store) (tid : String) (cp : Checkpoint) : Store :=
  (tid, cp) :: σ

/-- Modelled from the spec: the engine's step loop (section 4.3 step 2),
fuelled. Before executing a candidate node listed in `intr` the run
pauses (`skip` suppresses that check for the first candidate when
resuming, so that a resumed run enters the gated node, section 4.3's
design rationale).  Executing a node merges its sub-mapping into the
State; the transition is then resolved; an unknown field or an untabled
routing label fails the run. -/
def runLoop (g : GraphDef) (intr : List String) :
    Nat → Bool → StateMap → String → Option RunResult
  | 0, _, _, _ => none
  | fuel + 1, skip, st, cand =>
    if !skip && intr.contains cand then
      some ⟨st, .paused, cand, none, []⟩
    else
      match mergeState (gKeys g) st (g.nodeFn cand st) with
      | .error e => some ⟨st, .failed, cand, some e, [(cand, st)]⟩
      | .ok st2 =>
        match resolve (g.trans cand) st2 with
        | .error e => some ⟨st2, .failed, cand, some e, [(cand, st)]⟩
        | .ok none => some ⟨st2, .completed, "END", none, [(cand, st)]⟩
        | .ok (some d) =>
          match runLoop g intr fuel false st2 d with
          | none => none
          | some r => some { r with trace := (cand, st) :: r.trace }

/-- The caller's input to `invoke`: a concrete input mapping, or the
"no new input" sentinel used to resume (`invoke(None, ...)`). -/
inductive RunInput where
  | fresh (input : UpdMap)
  | resume

/-- Run the loop and persist the resulting checkpoint. -/
def runSave (g : GraphDef) (intr : List String) (fuel : Nat) (σ : Store)
    (tid : String) (skip : Bool) (st : StateMap) (cand : String) :
    Option (RunResult × Store) :=
  match runLoop g intr fuel skip st cand with
  | none => none
  | some r => some (r, storeSet σ tid ⟨r.state, r.nextNode, r.status⟩)

/-- Modelled from the spec: `invoke` (section 4.3 step 1).  A fresh run
starts from the schema defaults merged with the input at the entry node;
a resume loads the checkpoint and continues at its pending node (a
completed checkpoint makes resuming a no-op); a concrete input on an
existing thread is an external patch merged into the stored State. -/
def invoke (g : GraphDef) (intr : List String) (fuel : Nat) (σ : Store)
    (tid : String) (inp : RunInput) : Option (RunResult × Store) :=
  match storeGet σ tid, inp with
  | some cp, .resume =>
    if cp.status = .completed then
      some (⟨cp.state, .completed, cp.nextNode, none, []⟩, σ)
    else runSave g intr fuel σ tid true cp.state cp.nextNode
  | some cp, .fresh p =>
    match mergeState (gKeys g) cp.state p with
    | .error e =>
      some (⟨cp.state, .failed, cp.nextNode, some e, []⟩,
        storeSet σ tid ⟨cp.state, cp.nextNode, .failed⟩)
    | .ok st2 => runSave g intr fuel σ tid true st2 cp.nextNode
  | none, .resume => none
  | none, .fresh p =>
    match mergeState (gKeys g) g.schema p with
    | .error e =>
      some (⟨g.schema, .failed, g.entry, some e, []⟩,
        storeSet σ tid ⟨g.schema, g.entry, .failed⟩)
    | .ok st0 => runSave g intr fuel σ tid false st0 g.entry

/-- Modelled from the spec: `patchState(threadId, partial)`
(section 4.4) — merge a sub-mapping into the stored State without
advancing the pending node (`app.update_state` in the source). -/
def patchState (g : GraphDef) (σ : Store) (tid : String) (p : UpdMap) :
    Option Store :=
  match storeGet σ tid with
  | none => none
  | some cp =>
    match mergeState (gKeys g) cp.state p with
    | .error _ => none
    | .ok st2 => some (storeSet σ tid ⟨st2, cp.nextNode, cp.status⟩)

/-- `headMatch n h` holds when `n` is an initial segment of `h`. -/
def headMatch : List Char → List Char → Bool
  | [], _ => true
  | _ :: _, [] => false
  | a :: as, b :: bs => a == b && headMatch as bs

/-- `hasSub n h` holds when `n` occurs contiguously inside `h`. -/
def hasSub (needle : List Char) : List Char → Bool
  | [] => headMatch needle []
  | c :: t => headMatch needle (c :: t) || hasSub needle t

/-- Python's `needle in hay` on strings. -/
def strContains (hay needle : String) : Bool :=
  hasSub needle.data hay.data

/-- Python's `str.lower()` (the examples only use ASCII text). -/
def pyLower (s : String) : String :=
  String.mk (s.data.map Char.toLower)

/-- `classify_document`, identical in `basic_graph.py` and
`conditional_graph.py`: lowercase the document, check for `"loan"`, then
`"appraisal"`, else `"unknown"`, and return only the `classification`
field. -/
def classify_document (state : StateMap) : UpdMap :=
  let doc := pyLower (getStr state "document")
  let classification :=
    if strContains doc "loan" then "loan_disclosure"
    else if strContains doc "appraisal" then "appraisal"
    else "unknown"
  [("classification", .vstr classification)]

namespace BasicG

/-- `extract_data` of `basic_graph.py`. -/
def extract_data (state : StateMap) : UpdMap :=
  [("extracted_data", .vdict
    [("type", .vstr (getStr state "classification")),
     ("has_content", .vbool (decide (0 < (getStr state "document").length)))])]

/-- `validate_data` of `basic_graph.py`. -/
def validate_data (state : StateMap) : UpdMap :=
  [("is_valid", .vbool
    (decide (getStr state "classification" ≠ "unknown")
      && getBool (getDictD state "extracted_data") "has_content"))]

/-- The compiled `basic_graph` workflow:
START → classify → extract → validate → END. -/
def basicGraph : GraphDef where
  schema := [("document", .vstr ""), ("classification", .vstr ""),
    ("extracted_data", .vdict []), ("is_valid", .vbool false)]
  entry := "classify"
  nodeFn := fun n =>
    match n with
    | "classify" => classify_document
    | "extract" => extract_data
    | "validate" => validate_data
    | _ => fun _ => []
  trans := fun n =>
    match n with
    | "classify" => .direct "extract"
    | "extract" => .direct "validate"
    | _ => .toEnd

/-- The initial state passed to `app.invoke` in `basic_graph.py`,
with the document generalised. -/
def basicInput (doc : String) : UpdMap :=
  [("document", .vstr doc), ("classification", .vstr ""),
   ("extracted_data", .vdict []), ("is_valid", .vbool false)]

end BasicG

namespace CondG

/-- `extract_data` of `conditional_graph.py`. -/
def extract_data (state : StateMap) : UpdMap :=
  [("extracted_data", .vdict
    [("type", .vstr (getStr state "classification")),
     ("processed", .vbool true)])]

/-- `handle_unknown` of `conditional_graph.py`. -/
def handle_unknown (_state : StateMap) : UpdMap :=
  [("error_message", .vstr "Document type not recognized. Please review mannually.")]

/-- `route_by_classification` of `conditional_graph.py`. -/
def route_by_classification (state : StateMap) : String :=
  if getStr state "classification" = "unknown" then "handle_unknown"
  else "extract"

/-- The routing table attached to `classify` in `conditional_graph.py`. -/
def condTable : List (String × String) :=
  [("extract", "extract"), ("handle_unknown", "handle_unknown")]

/-- The compiled `conditional_graph` workflow. -/
def condGraph : GraphDef where
  schema := [("document", .vstr ""), ("classification", .vstr ""),
    ("extracted_data", .vdict []), ("error_message", .vstr "")]
  entry := "classify"
  nodeFn := fun n =>
    match n with
    | "classify" => classify_document
    | "extract" => extract_data
    | "handle_unknown" => handle_unknown
    | _ => fun _ => []
  trans := fun n =>
    match n with
    | "classify" => .cond route_by_classification condTable
    | _ => .toEnd

end CondG

namespace HilG

/-- `extract_amount` of `human_in_loop.py`: the amount is the simulated
constant `500000.00`, and approval is required when it exceeds
`100000.0`. -/
def extract_amount (_state : StateMap) : UpdMap :=
  let amount : Rat := 500000
  [("extracted_amount", .vnum amount),
   ("requires_approval", .vbool (decide ((100000 : Rat) < amount)))]

/-- `check_approval_needed` of `human_in_loop.py`. -/
def check_approval_needed (state : StateMap) : String :=
  if getBool state "requires_approval" then "wait_approval"
  else "auto_approve"

/-- `wait_for_approval` of `human_in_loop.py`. -/
def wait_for_approval (_state : StateMap) : UpdMap :=
  [("status", .vstr "waiting")]

/-- `auto_approve` of `human_in_loop.py`. -/
def auto_approve (_state : StateMap) : UpdMap :=
  [("approved", .vbool true), ("status", .vstr "auto_approved")]

/-- `finalize` of `human_in_loop.py`. -/
def finalize (state : StateMap) : UpdMap :=
  if getBool state "approved" then [("status", .vstr "complete")]
  else [("status", .vstr "rejected")]

/-- The routing table attached to `extract` in `human_in_loop.py`. -/
def hilTable : List (String × String) :=
  [("wait_approval", "wait_approval"), ("auto_approve", "auto_approve")]

/-- The compiled `human_in_loop` workflow (the source compiles it with
`interrupt_before=["finalize"]`, passed to the engine at invocation). -/
def hilGraph : GraphDef where
  schema := [("document", .vstr ""), ("extracted_amount", .vnum 0),
    ("requires_approval", .vbool false), ("approved", .vbool false),
    ("status", .vstr "")]
  entry := "extract"
  nodeFn := fun n =>
    match n with
    | "extract" => extract_amount
    | "wait_approval" => wait_for_approval
    | "auto_approve" => auto_approve
    | "finalize" => finalize
    | _ => fun _ => []
  trans := fun n =>
    match n with
    | "extract" => .cond check_approval_needed hilTable
    | "wait_approval" => .direct "finalize"
    | "auto_approve" => .direct "finalize"
    | _ => .toEnd

/-- The `initial_state` dictionary of `human_in_loop.py`. -/
def hilInput : UpdMap :=
  [("document", .vstr "Loan for $500,000"), ("extracted_amount", .vnum 0),
   ("requires_approval", .vbool false), ("approved", .vbool false),
   ("status", .vstr "")]

end HilG

namespace AiW

/-- `route_by_type` of `ai_workflow.py` (its returned labels, not its
declared Literal annotation, are what the engine looks up). -/
def route_by_type (state : StateMap) : String :=
  if getStr state "classification" = "loan_disclosure" then "extract_loan"
  else if getStr state "classification" = "appraisal" then "extract_appraisal"
  else "unknown"

/-- The routing table attached to `classify` in `ai_workflow.py`. -/
def aiTable : List (String × String) :=
  [("extract_loan", "extract_loan"), ("extract_appraisal", "extract_appraisal"),
   ("unknown", "unknown")]

end AiW

end LGr

namespace LGr

/-! ## Basic lemmas about the State model -/

/-- Whether an update mapping binds a key. -/
def bindsKey (p : UpdMap) (k : String) : Bool :=
  p.any (fun kv => kv.1 == k)

/-- A State is complete for a key list when every key is present. -/
def completeOn (keys : List String) (s : StateMap) : Bool :=
  keys.all (fun k => (getVal s k).isSome)

theorem getVal_setKey_ne (s : StateMap) (k k' : String) (v : Val) (h : k' ≠ k) :
    getVal (setKey s k' v) k = getVal s k := by
  induction s with
  | nil => rfl
  | cons hd t ih =>
    obtain ⟨k1, v1⟩ := hd
    by_cases h1 : k1 = k'
    · subst h1
      simp [setKey, getVal, h, ih]
    · by_cases h2 : k1 = k
      · subst h2
        simp [setKey, getVal, h1]
      · simp [setKey, getVal, h1, h2, ih]

theorem getVal_setKey_self (s : StateMap) (k : String) (v : Val)
    (h : (getVal s k).isSome = true) : getVal (setKey s k v) k = some v := by
  induction s with
  | nil => simp [getVal] at h
  | cons hd t ih =>
    obtain ⟨k1, v1⟩ := hd
    by_cases h1 : k1 = k
    · subst h1
      simp [setKey, getVal]
    · simp [setKey, getVal, h1] at h ⊢
      exact ih h

theorem isSome_getVal_setKey (s : StateMap) (k k' : String) (v : Val) :
    (getVal (setKey s k' v) k).isSome = (getVal s k).isSome := by
  induction s with
  | nil => rfl
  | cons hd t ih =>
    obtain ⟨k1, v1⟩ := hd
    by_cases h1 : k1 = k'
    · subst h1
      by_cases h2 : k1 = k
      · subst h2
        simp [setKey, getVal]
      · simp [setKey, getVal, h2, ih]
    · by_cases h2 : k1 = k
      · subst h2
        simp [setKey, getVal, h1]
      · simp [setKey, getVal, h1, h2, ih]

/-! ## Lemmas about merge -/

theorem mergeState_ok_keys (sch : List String) :
    ∀ (p : UpdMap) (s s' : StateMap), mergeState sch s p = .ok s' →
      ∀ kv ∈ p, sch.contains kv.1 = true := by
  intro p
  induction p with
  | nil =>
    intro s s' _ kv hkv
    simp at hkv
  | cons hd t ih =>
    intro s s' hm kv hkv
    obtain ⟨k, v⟩ := hd
    by_cases hc : sch.contains k = true
    · rcases List.mem_cons.mp hkv with hkv | hkv
      · subst hkv; exact hc
      · rw [mergeState, if_pos hc] at hm
        exact ih (setKey s k v) s' hm kv hkv
    · rw [mergeState, if_neg hc] at hm
      exact absurd hm (by simp)

theorem mergeState_locality (sch : List String) :
    ∀ (p : UpdMap) (s s' : StateMap) (k : String),
      mergeState sch s p = .ok s' → bindsKey p k = false →
      getVal s' k = getVal s k := by
  intro p
  induction p with
  | nil =>
    intro s s' k hm _
    rw [mergeState] at hm
    cases hm
    rfl
  | cons hd t ih =>
    intro s s' k hm hb
    obtain ⟨k1, v1⟩ := hd
    simp [bindsKey] at hb
    obtain ⟨hb1, hb2⟩ := hb
    by_cases hc : sch.contains k1 = true
    · rw [mergeState, if_pos hc] at hm
      have := ih (setKey s k1 v1) s' k hm (by simp [bindsKey]; exact hb2)
      rw [this, getVal_setKey_ne s k k1 v1 hb1]
    · rw [mergeState, if_neg hc] at hm
      exact absurd hm (by simp)

theorem mergeState_isSome (sch : List String) :
    ∀ (p : UpdMap) (s s' : StateMap), mergeState sch s p = .ok s' →
      ∀ k, (getVal s k).isSome = true → (getVal s' k).isSome = true := by
  intro p
  induction p with
  | nil =>
    intro s s' hm k hk
    rw [mergeState] at hm
    cases hm
    exact hk
  | cons hd t ih =>
    intro s s' hm k hk
    obtain ⟨k1, v1⟩ := hd
    by_cases hc : sch.contains k1 = true
    · rw [mergeState, if_pos hc] at hm
      exact ih (setKey s k1 v1) s' hm k (by rw [isSome_getVal_setKey]; exact hk)
    · rw [mergeState, if_neg hc] at hm
      exact absurd hm (by simp)

theorem mergeState_completeOn (keys sch : List String) (p : UpdMap) (s s' : StateMap)
    (hs : completeOn keys s = true) (hm : mergeState sch s p = .ok s') :
    completeOn keys s' = true := by
  simp only [completeOn, List.all_eq_true] at hs ⊢
  intro k hk
  exact mergeState_isSome sch p s s' hm k (hs k hk)

/-! ## The step loop preserves completeness -/

theorem runLoop_completeOn (g : GraphDef) (intr : List String) (keys : List String) :
    ∀ (fuel : Nat) (skip : Bool) (st : StateMap) (cand : String) (r : RunResult),
      completeOn keys st = true → runLoop g intr fuel skip st cand = some r →
      (∀ x ∈ r.trace, completeOn keys x.2 = true) ∧ completeOn keys r.state = true := by
  intro fuel
  induction fuel with
  | zero =>
    intro skip st cand r _ h
    simp [runLoop] at h
  | succ n ih =>
    intro skip st cand r hs h
    rw [runLoop] at h
    by_cases hi : (!skip && intr.contains cand) = true
    · rw [if_pos hi] at h
      cases h
      exact ⟨by intro x hx; simp at hx, hs⟩
    · rw [if_neg hi] at h
      split at h
      · cases h
        refine ⟨?_, hs⟩
        intro x hx
        simp at hx
        subst hx
        exact hs
      · rename_i st2 hm
        have hs2 := mergeState_completeOn keys (gKeys g) _ st st2 hs hm
        split at h
        · cases h
          refine ⟨?_, hs2⟩
          intro x hx
          simp at hx
          subst hx
          exact hs
        · cases h
          refine ⟨?_, hs2⟩
          intro x hx
          simp at hx
          subst hx
          exact hs
        · rename_i d hr
          split at h
          · cases h
          · rename_i r2 hrec
            cases h
            obtain ⟨ht, hst⟩ := ih false st2 d r2 hs2 hrec
            refine ⟨?_, hst⟩
            intro x hx
            rcases List.mem_cons.mp hx with hx | hx
            · subst hx
              exact hs
            · exact ht x hx

end LGr

namespace LGr

/-! ## Step equations for the loop -/

theorem runLoop_pause (g : GraphDef) (intr : List String) (fuel : Nat) (st : StateMap)
    (cand : String) (h : intr.contains cand = true) :
    runLoop g intr (fuel + 1) false st cand = some ⟨st, .paused, cand, none, []⟩ := by
  rw [runLoop, if_pos (by simpa using h)]

theorem runLoop_exec (g : GraphDef) (intr : List String) (fuel : Nat) (skip : Bool)
    (st st2 : StateMap) (cand d : String)
    (hskip : (!skip && intr.contains cand) = false)
    (hm : mergeState (gKeys g) st (g.nodeFn cand st) = .ok st2)
    (hr : resolve (g.trans cand) st2 = .ok (some d)) :
    runLoop g intr (fuel + 1) skip st cand =
      (runLoop g intr fuel false st2 d).map
        (fun r => { r with trace := (cand, st) :: r.trace }) := by
  rw [runLoop, if_neg (by intro hc; rw [hskip] at hc; exact Bool.noConfusion hc)]
  simp only [hm, hr]
  cases runLoop g intr fuel false st2 d <;> rfl

theorem runLoop_done (g : GraphDef) (intr : List String) (fuel : Nat) (skip : Bool)
    (st st2 : StateMap) (cand : String)
    (hskip : (!skip && intr.contains cand) = false)
    (hm : mergeState (gKeys g) st (g.nodeFn cand st) = .ok st2)
    (hr : resolve (g.trans cand) st2 = .ok none) :
    runLoop g intr (fuel + 1) skip st cand =
      some ⟨st2, .completed, "END", none, [(cand, st)]⟩ := by
  rw [runLoop, if_neg (by intro hc; rw [hskip] at hc; exact Bool.noConfusion hc)]
  simp only [hm, hr]

end LGr

namespace LGr.HilG

/-! ## The human-in-the-loop run, step by step -/

/-- The running State after `extract_amount`'s sub-mapping is merged. -/
def hilAfterExtract (st : StateMap) : StateMap :=
  setKey (setKey st "extracted_amount" (.vnum 500000)) "requires_approval" (.vbool true)

/-- The running State after `wait_for_approval`'s sub-mapping is merged. -/
def hilAfterWait (st : StateMap) : StateMap :=
  setKey (hilAfterExtract st) "status" (.vstr "waiting")

theorem hil_merge_extract (st : StateMap) :
    mergeState (gKeys hilGraph) st (hilGraph.nodeFn "extract" st)
      = .ok (hilAfterExtract st) := rfl

theorem hil_check_after_extract (st : StateMap)
    (h : (getVal st "requires_approval").isSome = true) :
    check_approval_needed (hilAfterExtract st) = "wait_approval" := by
  have h1 : getVal (hilAfterExtract st) "requires_approval" = some (.vbool true) := by
    unfold hilAfterExtract
    exact getVal_setKey_self _ _ _ (by rw [isSome_getVal_setKey]; exact h)
  simp [check_approval_needed, getBool, h1]

theorem hil_resolve_extract (st : StateMap)
    (h : (getVal st "requires_approval").isSome = true) :
    resolve (hilGraph.trans "extract") (hilAfterExtract st) = .ok (some "wait_approval") := by
  show resolve (.cond check_approval_needed hilTable) (hilAfterExtract st)
      = .ok (some "wait_approval")
  simp only [resolve, hil_check_after_extract st h]
  rfl

theorem hil_merge_wait (st : StateMap) :
    mergeState (gKeys hilGraph) (hilAfterExtract st)
      (hilGraph.nodeFn "wait_approval" (hilAfterExtract st)) = .ok (hilAfterWait st) := rfl

theorem hil_merge_finalize_t (st : StateMap) (h : getBool st "approved" = true) :
    mergeState (gKeys hilGraph) st (hilGraph.nodeFn "finalize" st)
      = .ok (setKey st "status" (.vstr "complete")) := by
  have hn : hilGraph.nodeFn "finalize" st = finalize st := rfl
  rw [hn, finalize, if_pos h]
  rfl

theorem hil_merge_finalize_f (st : StateMap) (h : getBool st "approved" = false) :
    mergeState (gKeys hilGraph) st (hilGraph.nodeFn "finalize" st)
      = .ok (setKey st "status" (.vstr "rejected")) := by
  have hn : hilGraph.nodeFn "finalize" st = finalize st := rfl
  rw [hn, finalize, if_neg (by simp [h])]
  rfl

/-- With `interrupt_before=["finalize"]`, a run started at `extract` on a
State carrying the `requires_approval` field executes `extract` and
`wait_approval` and pauses before `finalize` (any fuel of at least 3). -/
theorem hil_run3 (st : StateMap) (n : Nat)
    (h : (getVal st "requires_approval").isSome = true) :
    runLoop hilGraph ["finalize"] (n + 3) false st "extract" =
      some ⟨hilAfterWait st, .paused, "finalize", none,
        [("extract", st), ("wait_approval", hilAfterExtract st)]⟩ := by
  show runLoop hilGraph ["finalize"] (n + 2 + 1) false st "extract" = _
  rw [runLoop_exec hilGraph ["finalize"] (n + 2) false st (hilAfterExtract st)
    "extract" "wait_approval" (by decide) (hil_merge_extract st) (hil_resolve_extract st h)]
  show (runLoop hilGraph ["finalize"] (n + 1 + 1) false (hilAfterExtract st) "wait_approval").map _ = _
  rw [runLoop_exec hilGraph ["finalize"] (n + 1) false (hilAfterExtract st) (hilAfterWait st)
    "wait_approval" "finalize" (by decide) (hil_merge_wait st) rfl]
  rw [runLoop_pause hilGraph ["finalize"] n (hilAfterWait st) "finalize" (by decide)]
  rfl

/-- A run of fuel 1 or 2 started at `extract` runs out of fuel before
reaching an interrupt or END. -/
theorem hil_run_small (st : StateMap)
    (h : (getVal st "requires_approval").isSome = true) :
    runLoop hilGraph ["finalize"] 1 false st "extract" = none ∧
    runLoop hilGraph ["finalize"] 2 false st "extract" = none := by
  constructor
  · rw [show (1 : Nat) = 0 + 1 from rfl,
      runLoop_exec hilGraph ["finalize"] 0 false st (hilAfterExtract st)
        "extract" "wait_approval" (by decide) (hil_merge_extract st) (hil_resolve_extract st h)]
    rfl
  · rw [show (2 : Nat) = 1 + 1 from rfl,
      runLoop_exec hilGraph ["finalize"] 1 false st (hilAfterExtract st)
        "extract" "wait_approval" (by decide) (hil_merge_extract st) (hil_resolve_extract st h),
      show (1 : Nat) = 0 + 1 from rfl,
      runLoop_exec hilGraph ["finalize"] 0 false (hilAfterExtract st) (hilAfterWait st)
        "wait_approval" "finalize" (by decide) (hil_merge_wait st) rfl]
    rfl

end LGr.HilG

namespace LGr

/-- The `Test 2` input of `conditional_graph.py`, whose key
`"extrated_data"` is not a declared schema field. -/
def condTest2Input : UpdMap :=
  [("document", .vstr "Random document about something else"),
   ("classification", .vstr ""), ("extrated_data", .vdict []),
   ("error_message", .vstr "")]

/-- C10: for every document whose lowercased text contains `"loan"`, even
when it also contains `"appraisal"`, `classify_document` returns
`"loan_disclosure"` (the `"loan"` check takes precedence); and it returns
`"appraisal"` only when the lowercased text contains `"appraisal"` and
does not contain `"loan"`. -/
theorem claim_C10 (st : StateMap) :
    (strContains (pyLower (getStr st "document")) "loan" = true →
      strContains (pyLower (getStr st "document")) "appraisal" = true →
      classify_document st = [("classification", Val.vstr "loan_disclosure")]) ∧
    (classify_document st = [("classification", Val.vstr "appraisal")] →
      strContains (pyLower (getStr st "document")) "appraisal" = true ∧
      strContains (pyLower (getStr st "document")) "loan" = false) := by
  constructor
  · intro h1 _h2
    simp [classify_document, h1]
  · intro h
    by_cases hl : strContains (pyLower (getStr st "document")) "loan" = true
    · simp [classify_document, hl] at h
    · by_cases ha : strContains (pyLower (getStr st "document")) "appraisal" = true
      · exact ⟨ha, by simpa using hl⟩
      · simp [classify_document, hl, ha] at h

/-- Witness for C10 at a concrete document containing both `"loan"` and
`"appraisal"` (lowercased). -/
theorem claim_C10_witness :
    classify_document [("document", Val.vstr "Loan appraisal report")]
      = [("classification", Val.vstr "loan_disclosure")] :=
  (claim_C10 [("document", Val.vstr "Loan appraisal report")]).1 (by decide) (by decide)

/-- C5: merging a sub-mapping changes exactly the keys it binds — any
key it does not bind keeps its value; in particular merging
`classify_document`'s returned sub-mapping (which binds only
`classification`) leaves `document`, `extracted_data` and `is_valid`
unchanged. -/
theorem claim_C5 :
    (∀ (sch : List String) (p : UpdMap) (s s' : StateMap) (k : String),
      mergeState sch s p = .ok s' → bindsKey p k = false →
      getVal s' k = getVal s k) ∧
    (∀ (st s' : StateMap),
      mergeState (gKeys BasicG.basicGraph) st (classify_document st) = .ok s' →
      getVal s' "document" = getVal st "document" ∧
      getVal s' "extracted_data" = getVal st "extracted_data" ∧
      getVal s' "is_valid" = getVal st "is_valid") := by
  constructor
  · intro sch p s s' k hm hb
    exact mergeState_locality sch p s s' k hm hb
  · intro st s' hm
    refine ⟨?_, ?_, ?_⟩ <;>
      exact mergeState_locality _ (classify_document st) st s' _ hm rfl

/-- Witness for C5: merging `classify_document`'s output into the
`basic_graph` default State leaves the other three fields unchanged. -/
theorem claim_C5_witness :
    getVal [("document", Val.vstr ""), ("classification", Val.vstr "unknown"),
        ("extracted_data", Val.vdict []), ("is_valid", Val.vbool false)] "document"
      = getVal BasicG.basicGraph.schema "document" ∧
    getVal [("document", Val.vstr ""), ("classification", Val.vstr "unknown"),
        ("extracted_data", Val.vdict []), ("is_valid", Val.vbool false)] "extracted_data"
      = getVal BasicG.basicGraph.schema "extracted_data" ∧
    getVal [("document", Val.vstr ""), ("classification", Val.vstr "unknown"),
        ("extracted_data", Val.vdict []), ("is_valid", Val.vbool false)] "is_valid"
      = getVal BasicG.basicGraph.schema "is_valid" :=
  claim_C5.2 BasicG.basicGraph.schema _ (by rfl)

/-- C6: a merge only succeeds when every key of the sub-mapping is a
declared schema field (so a sub-mapping holding an undeclared key is
rejected with `UnknownFieldError` rather than accepted or dropped); in
particular invoking `conditional_graph` with Test 2's input, whose key
`"extrated_data"` is undeclared, fails with that error on that key. -/
theorem claim_C6 :
    (∀ (sch : List String) (p : UpdMap) (s s' : StateMap),
      mergeState sch s p = .ok s' → ∀ kv ∈ p, sch.contains kv.1 = true) ∧
    (∀ r σ', invoke CondG.condGraph [] 5 [] "t" (.fresh condTest2Input) = some (r, σ') →
      r.status = .failed ∧ r.error = some (.unknownField "extrated_data")) := by
  constructor
  · exact fun sch p s s' hm => mergeState_ok_keys sch p s s' hm
  · intro r σ' h
    have hv : invoke CondG.condGraph [] 5 [] "t" (.fresh condTest2Input)
        = some (⟨CondG.condGraph.schema, .failed, "classify",
            some (.unknownField "extrated_data"), []⟩,
          [("t", ⟨CondG.condGraph.schema, "classify", .failed⟩)]) := rfl
    rw [hv] at h
    cases h
    exact ⟨rfl, rfl⟩

/-- Witness for C6: the failed result of the Test 2 invocation. -/
theorem claim_C6_witness :
    (⟨CondG.condGraph.schema, .failed, "classify",
        some (.unknownField "extrated_data"), []⟩ : RunResult).status = .failed ∧
    (⟨CondG.condGraph.schema, .failed, "classify",
        some (.unknownField "extrated_data"), []⟩ : RunResult).error
      = some (.unknownField "extrated_data") :=
  claim_C6.2 _ _ rfl

end LGr

namespace LGr

/-- C4: each router attached to a conditional edge only returns labels
that are keys of its routing table (`route_by_classification`,
`check_approval_needed`, `route_by_type`), so resolving any of these
edges succeeds on every State and no run of these graphs fails with a
`RoutingError`; and, in the engine, a router returning an untabled label
would end the run with status `failed`, a `RoutingError`, and the State
immediately before routing. -/
theorem claim_C4 :
    (∀ st, (CondG.condTable.find?
      (fun kv => kv.1 == CondG.route_by_classification st)).isSome = true) ∧
    (∀ st, (HilG.hilTable.find?
      (fun kv => kv.1 == HilG.check_approval_needed st)).isSome = true) ∧
    (∀ st, (AiW.aiTable.find?
      (fun kv => kv.1 == AiW.route_by_type st)).isSome = true) ∧
    (∀ st, resolve (.cond CondG.route_by_classification CondG.condTable) st
      = .ok (some (CondG.route_by_classification st))) ∧
    (∀ st, resolve (.cond HilG.check_approval_needed HilG.hilTable) st
      = .ok (some (HilG.check_approval_needed st))) ∧
    (∀ st, resolve (.cond AiW.route_by_type AiW.aiTable) st
      = .ok (some (AiW.route_by_type st))) ∧
    (∀ (g : GraphDef) (intr : List String) (fuel : Nat) (skip : Bool)
        (st st2 : StateMap) (cand : String) (f : StateMap → String)
        (tbl : List (String × String)),
      (!skip && intr.contains cand) = false →
      mergeState (gKeys g) st (g.nodeFn cand st) = .ok st2 →
      g.trans cand = .cond f tbl →
      tbl.find? (fun kv => kv.1 == f st2) = none →
      runLoop g intr (fuel + 1) skip st cand
        = some ⟨st2, .failed, cand, some (.routingError (f st2)), [(cand, st)]⟩) := by
  refine ⟨?_, ?_, ?_, ?_, ?_, ?_, ?_⟩
  · intro st
    unfold CondG.route_by_classification
    by_cases h : getStr st "classification" = "unknown"
    · simp only [if_pos h]; rfl
    · simp only [if_neg h]; rfl
  · intro st
    unfold HilG.check_approval_needed
    by_cases h : getBool st "requires_approval" = true
    · simp only [if_pos h]; rfl
    · simp only [if_neg h]; rfl
  · intro st
    unfold AiW.route_by_type
    by_cases h1 : getStr st "classification" = "loan_disclosure"
    · simp only [if_pos h1]; rfl
    · simp only [if_neg h1]
      by_cases h2 : getStr st "classification" = "appraisal"
      · simp only [if_pos h2]; rfl
      · simp only [if_neg h2]; rfl
  · intro st
    unfold resolve CondG.route_by_classification
    by_cases h : getStr st "classification" = "unknown"
    · simp only [if_pos h]; rfl
    · simp only [if_neg h]; rfl
  · intro st
    unfold resolve HilG.check_approval_needed
    by_cases h : getBool st "requires_approval" = true
    · simp only [if_pos h]; rfl
    · simp only [if_neg h]; rfl
  · intro st
    unfold resolve AiW.route_by_type
    by_cases h1 : getStr st "classification" = "loan_disclosure"
    · simp only [if_pos h1]; rfl
    · simp only [if_neg h1]
      by_cases h2 : getStr st "classification" = "appraisal"
      · simp only [if_pos h2]; rfl
      · simp only [if_neg h2]; rfl
  · intro g intr fuel skip st st2 cand f tbl hskip hm htr hfind
    rw [runLoop, if_neg (by intro hc; rw [hskip] at hc; exact Bool.noConfusion hc)]
    simp only [hm, htr]
    simp only [resolve, hfind]

/-- Witness for C4's engine clause at a one-node graph whose router
returns an untabled label. -/
theorem claim_C4_witness :
    runLoop ⟨[("x", .vstr "")], "n", fun _ _ => [], fun _ => .cond (fun _ => "zzz") []⟩
        [] 1 false [("x", .vstr "")] "n"
      = some ⟨[("x", .vstr "")], .failed, "n", some (.routingError "zzz"),
          [("n", [("x", .vstr "")])]⟩ :=
  claim_C4.2.2.2.2.2.2 ⟨[("x", .vstr "")], "n", fun _ _ => [], fun _ => .cond (fun _ => "zzz") []⟩
    [] 0 false [("x", .vstr "")] [("x", .vstr "")] "n" (fun _ => "zzz") []
    rfl rfl rfl rfl

end LGr

namespace LGr.BasicG

/-- The running State of `basic_graph` after the input is merged over
the defaults. -/
def bSt0 (doc : String) : StateMap :=
  [("document", .vstr doc), ("classification", .vstr ""),
   ("extracted_data", .vdict []), ("is_valid", .vbool false)]

/-- The running State after `classify` on a loan document. -/
def bSt1 (doc : String) : StateMap :=
  [("document", .vstr doc), ("classification", .vstr "loan_disclosure"),
   ("extracted_data", .vdict []), ("is_valid", .vbool false)]

/-- The running State after `extract` on a non-empty loan document. -/
def bSt2 (doc : String) : StateMap :=
  [("document", .vstr doc), ("classification", .vstr "loan_disclosure"),
   ("extracted_data", .vdict [("type", .vstr "loan_disclosure"),
     ("has_content", .vbool true)]), ("is_valid", .vbool false)]

/-- The final State after `validate` on a non-empty loan document. -/
def bSt3 (doc : String) : StateMap :=
  [("document", .vstr doc), ("classification", .vstr "loan_disclosure"),
   ("extracted_data", .vdict [("type", .vstr "loan_disclosure"),
     ("has_content", .vbool true)]), ("is_valid", .vbool true)]

end LGr.BasicG

namespace LGr

/-- C3: invoking `basic_graph` with the source's initial State shape on
any non-empty document whose lowercased text contains `"loan"`
terminates (the invocation returns) and the final State has
`classification == "loan_disclosure"`, `is_valid == true` and a
completed run. -/
theorem claim_C3 (doc tid : String) (fuel : Nat) (r : RunResult) (σ' : Store)
    (h1 : strContains (pyLower doc) "loan" = true) (h2 : 0 < doc.length)
    (hinv : invoke BasicG.basicGraph [] (fuel + 3) [] tid
      (.fresh (BasicG.basicInput doc)) = some (r, σ')) :
    (invoke BasicG.basicGraph [] (fuel + 3) [] tid
      (.fresh (BasicG.basicInput doc))).isSome = true ∧
    r.status = .completed ∧ getStr r.state "classification" = "loan_disclosure" ∧
    getBool r.state "is_valid" = true := by
  have hcl : BasicG.basicGraph.nodeFn "classify" (BasicG.bSt0 doc)
      = [("classification", Val.vstr "loan_disclosure")] := by
    show classify_document (BasicG.bSt0 doc) = _
    simp [classify_document, show getStr (BasicG.bSt0 doc) "document" = doc from rfl, h1]
  have hm1 : mergeState (gKeys BasicG.basicGraph) (BasicG.bSt0 doc)
      (BasicG.basicGraph.nodeFn "classify" (BasicG.bSt0 doc)) = .ok (BasicG.bSt1 doc) := by
    rw [hcl]; rfl
  have hex : BasicG.basicGraph.nodeFn "extract" (BasicG.bSt1 doc)
      = [("extracted_data", Val.vdict [("type", Val.vstr "loan_disclosure"),
          ("has_content", Val.vbool true)])] := by
    show BasicG.extract_data (BasicG.bSt1 doc) = _
    simp [BasicG.extract_data, show getStr (BasicG.bSt1 doc) "document" = doc from rfl,
      show getStr (BasicG.bSt1 doc) "classification" = "loan_disclosure" from rfl,
      decide_eq_true h2]
  have hm2 : mergeState (gKeys BasicG.basicGraph) (BasicG.bSt1 doc)
      (BasicG.basicGraph.nodeFn "extract" (BasicG.bSt1 doc)) = .ok (BasicG.bSt2 doc) := by
    rw [hex]; rfl
  have hrun : runLoop BasicG.basicGraph [] (fuel + 3) false (BasicG.bSt0 doc) "classify"
      = some ⟨BasicG.bSt3 doc, .completed, "END", none,
          [("classify", BasicG.bSt0 doc), ("extract", BasicG.bSt1 doc),
           ("validate", BasicG.bSt2 doc)]⟩ := by
    show runLoop BasicG.basicGraph [] (fuel + 2 + 1) false (BasicG.bSt0 doc) "classify" = _
    rw [runLoop_exec BasicG.basicGraph [] (fuel + 2) false (BasicG.bSt0 doc) (BasicG.bSt1 doc)
      "classify" "extract" rfl hm1 rfl]
    show (runLoop BasicG.basicGraph [] (fuel + 1 + 1) false (BasicG.bSt1 doc) "extract").map _ = _
    rw [runLoop_exec BasicG.basicGraph [] (fuel + 1) false (BasicG.bSt1 doc) (BasicG.bSt2 doc)
      "extract" "validate" rfl hm2 rfl]
    rw [runLoop_done BasicG.basicGraph [] fuel false (BasicG.bSt2 doc) (BasicG.bSt3 doc)
      "validate" rfl rfl rfl]
    rfl
  have hiv : invoke BasicG.basicGraph [] (fuel + 3) [] tid (.fresh (BasicG.basicInput doc))
      = some (⟨BasicG.bSt3 doc, .completed, "END", none,
          [("classify", BasicG.bSt0 doc), ("extract", BasicG.bSt1 doc),
           ("validate", BasicG.bSt2 doc)]⟩,
        [(tid, ⟨BasicG.bSt3 doc, "END", .completed⟩)]) := by
    show runSave BasicG.basicGraph [] (fuel + 3) [] tid false (BasicG.bSt0 doc) "classify" = _
    rw [runSave, hrun]
    rfl
  rw [hiv] at hinv
  cases hinv
  exact ⟨by rw [hiv]; rfl, rfl, rfl, rfl⟩

/-- Witness for C3 at the source's document
`"This is a LOAN disclosure document for $500,000"`. -/
theorem claim_C3_witness :
    (invoke BasicG.basicGraph [] 3 [] "t"
      (.fresh (BasicG.basicInput "This is a LOAN disclosure document for $500,000"))).isSome
      = true ∧
    (⟨BasicG.bSt3 "This is a LOAN disclosure document for $500,000", .completed, "END", none,
        [("classify", BasicG.bSt0 "This is a LOAN disclosure document for $500,000"),
         ("extract", BasicG.bSt1 "This is a LOAN disclosure document for $500,000"),
         ("validate", BasicG.bSt2 "This is a LOAN disclosure document for $500,000")]⟩
      : RunResult).status = .completed ∧
    getStr (RunResult.state ⟨BasicG.bSt3 "This is a LOAN disclosure document for $500,000",
        .completed, "END", none, []⟩) "classification" = "loan_disclosure" ∧
    getBool (RunResult.state ⟨BasicG.bSt3 "This is a LOAN disclosure document for $500,000",
        .completed, "END", none, []⟩) "is_valid" = true :=
  claim_C3 "This is a LOAN disclosure document for $500,000" "t" 0
    ⟨BasicG.bSt3 "This is a LOAN disclosure document for $500,000", .completed, "END", none,
      [("classify", BasicG.bSt0 "This is a LOAN disclosure document for $500,000"),
       ("extract", BasicG.bSt1 "This is a LOAN disclosure document for $500,000"),
       ("validate", BasicG.bSt2 "This is a LOAN disclosure document for $500,000")]⟩
    [("t", ⟨BasicG.bSt3 "This is a LOAN disclosure document for $500,000", "END", .completed⟩)]
    (by decide) (by decide) (by rfl)

end LGr

namespace LGr

/-! ## Unfolding lemmas for invoke, patchState and the store -/

theorem invoke_fresh_ok (g : GraphDef) (intr : List String) (fuel : Nat) (tid : String)
    (p : UpdMap) (st0 : StateMap)
    (hm : mergeState (gKeys g) g.schema p = .ok st0) :
    invoke g intr fuel [] tid (.fresh p) = runSave g intr fuel [] tid false st0 g.entry := by
  have h1 : invoke g intr fuel [] tid (.fresh p)
      = (match mergeState (gKeys g) g.schema p with
         | .error e => some (⟨g.schema, .failed, g.entry, some e, []⟩,
             storeSet [] tid ⟨g.schema, g.entry, .failed⟩)
         | .ok st1 => runSave g intr fuel [] tid false st1 g.entry) := rfl
  rw [h1, hm]

theorem invoke_resume_run (g : GraphDef) (intr : List String) (fuel : Nat) (σ : Store)
    (tid : String) (stc : StateMap) (nn : String) (sts : RStatus)
    (hcp : storeGet σ tid = some ⟨stc, nn, sts⟩) (hst : ¬ sts = .completed) :
    invoke g intr fuel σ tid .resume = runSave g intr fuel σ tid true stc nn := by
  unfold invoke
  rw [hcp]
  show (if sts = RStatus.completed then
      some (⟨stc, RStatus.completed, nn, none, []⟩, σ)
    else runSave g intr fuel σ tid true stc nn)
    = runSave g intr fuel σ tid true stc nn
  rw [if_neg hst]

theorem patchState_ok (g : GraphDef) (σ : Store) (tid : String) (cp : Checkpoint)
    (p : UpdMap) (st2 : StateMap) (hcp : storeGet σ tid = some cp)
    (hm : mergeState (gKeys g) cp.state p = .ok st2) :
    patchState g σ tid p = some (storeSet σ tid ⟨st2, cp.nextNode, cp.status⟩) := by
  unfold patchState
  rw [hcp]
  show (match mergeState (gKeys g) cp.state p with
        | .error _ => none
        | .ok st3 => some (storeSet σ tid ⟨st3, cp.nextNode, cp.status⟩))
    = some (storeSet σ tid ⟨st2, cp.nextNode, cp.status⟩)
  rw [hm]

theorem storeGet_storeSet (σ : Store) (tid : String) (cp : Checkpoint) :
    storeGet (storeSet σ tid cp) tid = some cp := by
  simp [storeGet, storeSet, List.find?]

/-- C8: on a run of `conditional_graph` whose (complete) starting State
holds a document containing neither `"loan"` nor `"appraisal"` in
lowercase, the classifier yields `"unknown"`, the router returns
`"handle_unknown"`, the run completes with the non-empty
`error_message` set by `handle_unknown`, the `extract` node is never
executed, and `extracted_data` keeps its initial value. -/
theorem claim_C8 (st0 : StateMap) (fuel : Nat) (r : RunResult)
    (hc : completeOn (gKeys CondG.condGraph) st0 = true)
    (hl : strContains (pyLower (getStr st0 "document")) "loan" = false)
    (ha : strContains (pyLower (getStr st0 "document")) "appraisal" = false)
    (hrun : runLoop CondG.condGraph [] (fuel + 2) false st0 "classify" = some r) :
    CondG.route_by_classification (setKey st0 "classification" (Val.vstr "unknown"))
      = "handle_unknown" ∧
    r.status = .completed ∧
    getStr r.state "error_message"
      = "Document type not recognized. Please review mannually." ∧
    (r.trace.map Prod.fst).contains "extract" = false ∧
    getVal r.state "extracted_data" = getVal st0 "extracted_data" := by
  have hc' := hc
  simp [completeOn, gKeys, CondG.condGraph] at hc'
  obtain ⟨hcd, hcc, hce, hcm⟩ := hc'
  have hgv1 : getVal (setKey st0 "classification" (Val.vstr "unknown")) "classification"
      = some (.vstr "unknown") :=
    getVal_setKey_self st0 "classification" _ hcc
  have hcls : getStr (setKey st0 "classification" (Val.vstr "unknown")) "classification"
      = "unknown" := by
    simp [getStr, hgv1]
  have hroute : CondG.route_by_classification (setKey st0 "classification" (Val.vstr "unknown"))
      = "handle_unknown" := by
    simp [CondG.route_by_classification, hcls]
  have hclassify : CondG.condGraph.nodeFn "classify" st0
      = [("classification", Val.vstr "unknown")] := by
    show classify_document st0 = _
    simp [classify_document, hl, ha]
  have hm1 : mergeState (gKeys CondG.condGraph) st0 (CondG.condGraph.nodeFn "classify" st0)
      = .ok (setKey st0 "classification" (Val.vstr "unknown")) := by
    rw [hclassify]; rfl
  have hres1 : resolve (CondG.condGraph.trans "classify")
      (setKey st0 "classification" (Val.vstr "unknown")) = .ok (some "handle_unknown") := by
    show resolve (.cond CondG.route_by_classification CondG.condTable) _ = _
    simp only [resolve, hroute]
    rfl
  have hm2 : mergeState (gKeys CondG.condGraph) (setKey st0 "classification" (Val.vstr "unknown"))
      (CondG.condGraph.nodeFn "handle_unknown" (setKey st0 "classification" (Val.vstr "unknown")))
      = .ok (setKey (setKey st0 "classification" (Val.vstr "unknown")) "error_message"
          (Val.vstr "Document type not recognized. Please review mannually.")) := rfl
  have hrun2 : runLoop CondG.condGraph [] (fuel + 2) false st0 "classify"
      = some ⟨setKey (setKey st0 "classification" (Val.vstr "unknown")) "error_message"
            (Val.vstr "Document type not recognized. Please review mannually."),
          .completed, "END", none,
          [("classify", st0),
           ("handle_unknown", setKey st0 "classification" (Val.vstr "unknown"))]⟩ := by
    show runLoop CondG.condGraph [] (fuel + 1 + 1) false st0 "classify" = _
    rw [runLoop_exec CondG.condGraph [] (fuel + 1) false st0
      (setKey st0 "classification" (Val.vstr "unknown")) "classify" "handle_unknown"
      rfl hm1 hres1]
    rw [runLoop_done CondG.condGraph [] fuel false
      (setKey st0 "classification" (Val.vstr "unknown")) _ "handle_unknown" rfl hm2 rfl]
    rfl
  rw [hrun2] at hrun
  cases hrun
  refine ⟨hroute, rfl, ?_, rfl, ?_⟩
  · have hsome : (getVal (setKey st0 "classification" (Val.vstr "unknown"))
        "error_message").isSome = true := by
      rw [isSome_getVal_setKey]
      exact hcm
    have hv := getVal_setKey_self (setKey st0 "classification" (Val.vstr "unknown"))
      "error_message" (Val.vstr "Document type not recognized. Please review mannually.") hsome
    simp [getStr, hv]
  · rw [getVal_setKey_ne _ "extracted_data" "error_message" _ (by decide),
      getVal_setKey_ne st0 "extracted_data" "classification" _ (by decide)]

/-- The well-formed version of Test 2's initial State (`extrated_data`
spelled correctly, as `extracted_data`). -/
def c8St0 : StateMap :=
  [("document", .vstr "Random document about something else"),
   ("classification", .vstr ""), ("extracted_data", .vdict []),
   ("error_message", .vstr "")]

/-- The result of the Test 2 run on `c8St0`. -/
def c8Res : RunResult :=
  ⟨setKey (setKey c8St0 "classification" (.vstr "unknown")) "error_message"
      (.vstr "Document type not recognized. Please review mannually."),
    .completed, "END", none,
    [("classify", c8St0),
     ("handle_unknown", setKey c8St0 "classification" (.vstr "unknown"))]⟩

/-- Witness for C8 at the well-formed version of Test 2's document. -/
theorem claim_C8_witness :
    CondG.route_by_classification (setKey c8St0 "classification" (Val.vstr "unknown"))
      = "handle_unknown" ∧
    c8Res.status = .completed ∧
    getStr c8Res.state "error_message"
      = "Document type not recognized. Please review mannually." ∧
    (c8Res.trace.map Prod.fst).contains "extract" = false ∧
    getVal c8Res.state "extracted_data" = getVal c8St0 "extracted_data" :=
  claim_C8 c8St0 0 c8Res (by decide) (by decide) (by decide) (by rfl)

end LGr

namespace LGr.HilG

/-- `finalize` merges a single `status` binding, `"complete"` when the
State's `approved` field reads true and `"rejected"` otherwise. -/
theorem hil_merge_finalize (st : StateMap) :
    mergeState (gKeys hilGraph) st (hilGraph.nodeFn "finalize" st)
      = .ok (setKey st "status"
          (.vstr (if getBool st "approved" then "complete" else "rejected"))) := by
  by_cases h : getBool st "approved" = true
  · simp [hil_merge_finalize_t st h, h]
  · have hb : getBool st "approved" = false := by simpa using h
    simp [hil_merge_finalize_f st hb, hb]

end LGr.HilG

namespace LGr

/-- C1: with `interrupt_before=["finalize"]`, a first invocation on a
fresh thread identifier (any input the schema accepts) never executes
the `finalize` node: the run pauses before it, the returned status is
`paused` with pending node `finalize`, and `finalize` is executed by the
second invocation (the resume) on the same thread identifier. -/
theorem claim_C1 (p : UpdMap) (st0 : StateMap) (tid : String) (fuel fuel2 : Nat)
    (r r2 : RunResult) (σ1 σ2 : Store)
    (hm : mergeState (gKeys HilG.hilGraph) HilG.hilGraph.schema p = .ok st0)
    (h1 : invoke HilG.hilGraph ["finalize"] (fuel + 3) [] tid (.fresh p) = some (r, σ1))
    (h2 : invoke HilG.hilGraph ["finalize"] (fuel2 + 1) σ1 tid .resume = some (r2, σ2)) :
    (r.trace.map Prod.fst).contains "finalize" = false ∧
    r.status = .paused ∧ r.nextNode = "finalize" ∧
    (r2.trace.map Prod.fst).contains "finalize" = true := by
  have hcomp : completeOn (gKeys HilG.hilGraph) st0 = true :=
    mergeState_completeOn _ _ p _ st0 (by decide) hm
  have hcomp' := hcomp
  simp [completeOn, gKeys, HilG.hilGraph] at hcomp'
  obtain ⟨_hd, _he, hra, _hap, _hst⟩ := hcomp'
  have hrun := HilG.hil_run3 st0 fuel hra
  have hiv : invoke HilG.hilGraph ["finalize"] (fuel + 3) [] tid (.fresh p)
      = some (⟨HilG.hilAfterWait st0, .paused, "finalize", none,
          [("extract", st0), ("wait_approval", HilG.hilAfterExtract st0)]⟩,
        [(tid, ⟨HilG.hilAfterWait st0, "finalize", .paused⟩)]) := by
    rw [invoke_fresh_ok _ _ _ _ _ _ hm,
      show HilG.hilGraph.entry = "extract" from rfl, runSave, hrun]
    rfl
  rw [hiv] at h1
  cases h1
  have hcomp2 : completeOn (gKeys HilG.hilGraph) (HilG.hilAfterWait st0) = true := by
    unfold HilG.hilAfterWait HilG.hilAfterExtract
    simp only [completeOn, List.all_eq_true] at hcomp ⊢
    intro k hk
    rw [isSome_getVal_setKey, isSome_getVal_setKey, isSome_getVal_setKey]
    exact hcomp k hk
  have hrun2 : runLoop HilG.hilGraph ["finalize"] (fuel2 + 1) true (HilG.hilAfterWait st0)
      "finalize" = some ⟨setKey (HilG.hilAfterWait st0) "status"
          (.vstr (if getBool (HilG.hilAfterWait st0) "approved" then "complete"
            else "rejected")),
        .completed, "END", none, [("finalize", HilG.hilAfterWait st0)]⟩ :=
    runLoop_done HilG.hilGraph ["finalize"] fuel2 true (HilG.hilAfterWait st0) _
      "finalize" rfl (HilG.hil_merge_finalize (HilG.hilAfterWait st0)) rfl
  have hiv2 : invoke HilG.hilGraph ["finalize"] (fuel2 + 1)
      [(tid, ⟨HilG.hilAfterWait st0, "finalize", .paused⟩)] tid .resume
      = some (⟨setKey (HilG.hilAfterWait st0) "status"
            (.vstr (if getBool (HilG.hilAfterWait st0) "approved" then "complete"
              else "rejected")),
          .completed, "END", none, [("finalize", HilG.hilAfterWait st0)]⟩,
        storeSet [(tid, ⟨HilG.hilAfterWait st0, "finalize", .paused⟩)] tid
          ⟨setKey (HilG.hilAfterWait st0) "status"
            (.vstr (if getBool (HilG.hilAfterWait st0) "approved" then "complete"
              else "rejected")), "END", .completed⟩) := by
    rw [invoke_resume_run HilG.hilGraph ["finalize"] (fuel2 + 1)
      [(tid, ⟨HilG.hilAfterWait st0, "finalize", .paused⟩)] tid
      (HilG.hilAfterWait st0) "finalize" .paused
      (show storeGet [(tid, ⟨HilG.hilAfterWait st0, "finalize", RStatus.paused⟩)] tid
        = some ⟨HilG.hilAfterWait st0, "finalize", RStatus.paused⟩
       from storeGet_storeSet [] tid _) (by decide),
      runSave, hrun2]
  rw [hiv2] at h2
  cases h2
  exact ⟨rfl, rfl, rfl, rfl⟩

/-- C2: on a run paused before `finalize` (any complete paused State),
patching the stored State with `{"approved": true}` and then resuming
with the no-input sentinel completes the run; `finalize` observes the
patched `approved` field, so the final State has `approved == true` and
`status == "complete"`. -/
theorem claim_C2 (σ : Store) (tid : String) (st : StateMap) (fuel : Nat)
    (σ2 σ3 : Store) (r : RunResult)
    (hcp : storeGet σ tid = some ⟨st, "finalize", .paused⟩)
    (hcomp : completeOn (gKeys HilG.hilGraph) st = true)
    (hpatch : patchState HilG.hilGraph σ tid [("approved", .vbool true)] = some σ2)
    (hres : invoke HilG.hilGraph ["finalize"] (fuel + 1) σ2 tid .resume = some (r, σ3)) :
    getVal r.state "approved" = some (.vbool true) ∧
    getStr r.state "status" = "complete" ∧
    r.status = .completed ∧
    (r.trace.map Prod.fst).contains "finalize" = true := by
  have hcomp' := hcomp
  simp [completeOn, gKeys, HilG.hilGraph] at hcomp'
  obtain ⟨_hd, _he, _hra, hap, hst⟩ := hcomp'
  have hmp : mergeState (gKeys HilG.hilGraph) st [("approved", Val.vbool true)]
      = .ok (setKey st "approved" (.vbool true)) := rfl
  have hp := patchState_ok HilG.hilGraph σ tid ⟨st, "finalize", .paused⟩
    [("approved", .vbool true)] (setKey st "approved" (.vbool true)) hcp hmp
  rw [hp] at hpatch
  cases hpatch
  have hgapp : getVal (setKey st "approved" (.vbool true)) "approved"
      = some (.vbool true) :=
    getVal_setKey_self st "approved" _ hap
  have hbapp : getBool (setKey st "approved" (.vbool true)) "approved" = true := by
    simp [getBool, hgapp]
  have hrun : runLoop HilG.hilGraph ["finalize"] (fuel + 1) true
      (setKey st "approved" (.vbool true)) "finalize"
      = some ⟨setKey (setKey st "approved" (.vbool true)) "status" (.vstr "complete"),
          .completed, "END", none, [("finalize", setKey st "approved" (.vbool true))]⟩ :=
    runLoop_done HilG.hilGraph ["finalize"] fuel true _ _ "finalize" rfl
      (HilG.hil_merge_finalize_t _ hbapp) rfl
  have hiv : invoke HilG.hilGraph ["finalize"] (fuel + 1)
      (storeSet σ tid ⟨setKey st "approved" (.vbool true), "finalize", .paused⟩) tid .resume
      = some (⟨setKey (setKey st "approved" (.vbool true)) "status" (.vstr "complete"),
          .completed, "END", none, [("finalize", setKey st "approved" (.vbool true))]⟩,
        storeSet (storeSet σ tid ⟨setKey st "approved" (.vbool true), "finalize", .paused⟩)
          tid ⟨setKey (setKey st "approved" (.vbool true)) "status" (.vstr "complete"),
            "END", .completed⟩) := by
    rw [invoke_resume_run HilG.hilGraph ["finalize"] (fuel + 1) _ tid
      (setKey st "approved" (.vbool true)) "finalize" .paused
      (storeGet_storeSet σ tid _) (by decide), runSave, hrun]
  rw [hiv] at hres
  cases hres
  refine ⟨?_, ?_, rfl, rfl⟩
  · rw [getVal_setKey_ne _ "approved" "status" _ (by decide)]
    exact hgapp
  · have hsome : (getVal (setKey st "approved" (.vbool true)) "status").isSome = true := by
      rw [isSome_getVal_setKey]
      exact hst
    have hv := getVal_setKey_self (setKey st "approved" (.vbool true)) "status"
      (.vstr "complete") hsome
    simp [getStr, hv]

end LGr

namespace LGr.HilG

/-- The State of `human_in_loop.py` after its `initial_state` is merged
over the defaults. -/
def hSt0 : StateMap :=
  [("document", .vstr "Loan for $500,000"), ("extracted_amount", .vnum 0),
   ("requires_approval", .vbool false), ("approved", .vbool false),
   ("status", .vstr "")]

/-- The result of the first invocation on thread `loan-123`. -/
def hR1 : RunResult :=
  ⟨hilAfterWait hSt0, .paused, "finalize", none,
   [("extract", hSt0), ("wait_approval", hilAfterExtract hSt0)]⟩

/-- The store after the first invocation. -/
def hS1 : Store := [("loan-123", ⟨hilAfterWait hSt0, "finalize", .paused⟩)]

/-- The result of resuming without the approval patch. -/
def hR2 : RunResult :=
  ⟨setKey (hilAfterWait hSt0) "status" (.vstr "rejected"), .completed, "END", none,
   [("finalize", hilAfterWait hSt0)]⟩

/-- The store after resuming without the approval patch. -/
def hS2 : Store :=
  storeSet hS1 "loan-123"
    ⟨setKey (hilAfterWait hSt0) "status" (.vstr "rejected"), "END", .completed⟩

/-- The paused State patched with `{"approved": true}`. -/
def hPat : StateMap := setKey (hilAfterWait hSt0) "approved" (.vbool true)

/-- The store after `update_state` on the paused run. -/
def hS2p : Store := storeSet hS1 "loan-123" ⟨hPat, "finalize", .paused⟩

/-- The result of resuming after the approval patch. -/
def hR3 : RunResult :=
  ⟨setKey hPat "status" (.vstr "complete"), .completed, "END", none, [("finalize", hPat)]⟩

/-- The store after resuming after the approval patch. -/
def hS3 : Store :=
  storeSet hS2p "loan-123" ⟨setKey hPat "status" (.vstr "complete"), "END", .completed⟩

end LGr.HilG

namespace LGr

/-- Witness for C1 at the source's `initial_state` and thread
identifier `loan-123`. -/
theorem claim_C1_witness :
    (HilG.hR1.trace.map Prod.fst).contains "finalize" = false ∧
    HilG.hR1.status = .paused ∧ HilG.hR1.nextNode = "finalize" ∧
    (HilG.hR2.trace.map Prod.fst).contains "finalize" = true :=
  claim_C1 HilG.hilInput HilG.hSt0 "loan-123" 0 0 HilG.hR1 HilG.hR2 HilG.hS1 HilG.hS2
    (by rfl) (by rfl) (by rfl)

/-- Witness for C2 on the paused checkpoint produced by the source's
first invocation. -/
theorem claim_C2_witness :
    getVal HilG.hR3.state "approved" = some (.vbool true) ∧
    getStr HilG.hR3.state "status" = "complete" ∧
    HilG.hR3.status = .completed ∧
    (HilG.hR3.trace.map Prod.fst).contains "finalize" = true :=
  claim_C2 HilG.hS1 "loan-123" (HilG.hilAfterWait HilG.hSt0) 0 HilG.hS2p HilG.hS3 HilG.hR3
    (by rfl) (by decide) (by rfl) (by rfl)

/-- C9: a run of the `human_in_loop` graph (first invocation on a fresh
thread, any schema-accepted input, any fuel) never executes the
`auto_approve` node; `extract_amount` unconditionally returns amount
`500000` with `requires_approval = true` (since `500000 > 100000`), so
`check_approval_needed` returns `"wait_approval"` on every State the
router can see after `extract`. -/
theorem claim_C9 (p : UpdMap) (st0 : StateMap) (tid : String) (fuel : Nat)
    (r : RunResult) (σ1 : Store)
    (hm : mergeState (gKeys HilG.hilGraph) HilG.hilGraph.schema p = .ok st0)
    (hinv : invoke HilG.hilGraph ["finalize"] fuel [] tid (.fresh p) = some (r, σ1)) :
    (r.trace.map Prod.fst).contains "auto_approve" = false ∧
    (∀ st, HilG.extract_amount st
      = [("extracted_amount", Val.vnum 500000), ("requires_approval", Val.vbool true)]) ∧
    (∀ st, (getVal st "requires_approval").isSome = true →
      HilG.check_approval_needed (HilG.hilAfterExtract st) = "wait_approval") := by
  refine ⟨?_, fun st => rfl, fun st h => HilG.hil_check_after_extract st h⟩
  have hcomp : completeOn (gKeys HilG.hilGraph) st0 = true :=
    mergeState_completeOn _ _ p _ st0 (by decide) hm
  have hcomp' := hcomp
  simp [completeOn, gKeys, HilG.hilGraph] at hcomp'
  obtain ⟨_hd, _he, hra, _hap, _hst⟩ := hcomp'
  rcases fuel with _ | (_ | (_ | n))
  · have hiv : invoke HilG.hilGraph ["finalize"] 0 [] tid (.fresh p) = none := by
      rw [invoke_fresh_ok _ _ _ _ _ _ hm, show HilG.hilGraph.entry = "extract" from rfl,
        runSave, show runLoop HilG.hilGraph ["finalize"] 0 false st0 "extract" = none from rfl]
    rw [hiv] at hinv
    exact Option.noConfusion hinv
  · have hiv : invoke HilG.hilGraph ["finalize"] 1 [] tid (.fresh p) = none := by
      rw [invoke_fresh_ok _ _ _ _ _ _ hm, show HilG.hilGraph.entry = "extract" from rfl,
        runSave, (HilG.hil_run_small st0 hra).1]
    rw [hiv] at hinv
    exact Option.noConfusion hinv
  · have hiv : invoke HilG.hilGraph ["finalize"] 2 [] tid (.fresh p) = none := by
      rw [invoke_fresh_ok _ _ _ _ _ _ hm, show HilG.hilGraph.entry = "extract" from rfl,
        runSave, (HilG.hil_run_small st0 hra).2]
    rw [hiv] at hinv
    exact Option.noConfusion hinv
  · have hiv : invoke HilG.hilGraph ["finalize"] (n + 3) [] tid (.fresh p)
        = some (⟨HilG.hilAfterWait st0, .paused, "finalize", none,
            [("extract", st0), ("wait_approval", HilG.hilAfterExtract st0)]⟩,
          [(tid, ⟨HilG.hilAfterWait st0, "finalize", .paused⟩)]) := by
      rw [invoke_fresh_ok _ _ _ _ _ _ hm, show HilG.hilGraph.entry = "extract" from rfl,
        runSave, HilG.hil_run3 st0 n hra]
      rfl
    rw [hiv] at hinv
    cases hinv
    rfl

/-- Witness for C9 at the source's `initial_state`. -/
theorem claim_C9_witness :
    (HilG.hR1.trace.map Prod.fst).contains "auto_approve" = false ∧
    HilG.extract_amount HilG.hSt0
      = [("extracted_amount", Val.vnum 500000), ("requires_approval", Val.vbool true)] ∧
    HilG.check_approval_needed (HilG.hilAfterExtract HilG.hSt0) = "wait_approval" :=
  have h := claim_C9 HilG.hilInput HilG.hSt0 "loan-123" 3 HilG.hR1 HilG.hS1 (by rfl) (by rfl)
  ⟨h.1, h.2.1 HilG.hSt0, h.2.2 HilG.hSt0 (by decide)⟩

end LGr

namespace LGr

/-- The Test 2 input of `conditional_graph.py` with the misspelled key
removed: it omits the `extracted_data` field entirely. -/
def c7Input : UpdMap :=
  [("document", .vstr "Random document about something else"),
   ("classification", .vstr ""), ("error_message", .vstr "")]

/-- C7: the running State of `conditional_graph` is always fully
formed — every schema field is present in the initial State (defaults
fill in fields the caller omitted, such as `extracted_data` in an input
that omits it), merging preserves this, and on any run every node
receives a State in which every schema field is present, as is every
field of the final State. -/
theorem claim_C7 :
    (∀ (st : StateMap) (p : UpdMap) (st' : StateMap),
      completeOn (gKeys CondG.condGraph) st = true →
      mergeState (gKeys CondG.condGraph) st p = .ok st' →
      completeOn (gKeys CondG.condGraph) st' = true) ∧
    (∀ (p : UpdMap) (st0 : StateMap),
      mergeState (gKeys CondG.condGraph) CondG.condGraph.schema p = .ok st0 →
      completeOn (gKeys CondG.condGraph) st0 = true) ∧
    (∀ (fuel : Nat) (skip : Bool) (st : StateMap) (cand : String) (r : RunResult),
      completeOn (gKeys CondG.condGraph) st = true →
      runLoop CondG.condGraph [] fuel skip st cand = some r →
      (∀ x ∈ r.trace, completeOn (gKeys CondG.condGraph) x.2 = true) ∧
      completeOn (gKeys CondG.condGraph) r.state = true) ∧
    (∀ (st0 : StateMap),
      mergeState (gKeys CondG.condGraph) CondG.condGraph.schema c7Input = .ok st0 →
      completeOn (gKeys CondG.condGraph) st0 = true ∧
      (getVal st0 "extracted_data").isSome = true) := by
  refine ⟨?_, ?_, ?_, ?_⟩
  · intro st p st' hc hm
    exact mergeState_completeOn _ _ p st st' hc hm
  · intro p st0 hm
    exact mergeState_completeOn _ _ p _ st0 (by decide) hm
  · intro fuel skip st cand r hc hr
    exact runLoop_completeOn CondG.condGraph [] _ fuel skip st cand r hc hr
  · intro st0 hm
    have hc := mergeState_completeOn (gKeys CondG.condGraph) _ c7Input _ st0 (by decide) hm
    refine ⟨hc, ?_⟩
    have hc' := hc
    simp [completeOn, gKeys, CondG.condGraph] at hc'
    exact hc'.2.2.1

/-- Witness for C7: the State obtained by merging the
`extracted_data`-omitting input over the defaults is complete and still
carries the `extracted_data` field. -/
theorem claim_C7_witness :
    completeOn (gKeys CondG.condGraph)
      [("document", .vstr "Random document about something else"),
       ("classification", .vstr ""), ("extracted_data", .vdict []),
       ("error_message", .vstr "")] = true ∧
    (getVal [("document", .vstr "Random document about something else"),
       ("classification", .vstr ""), ("extracted_data", .vdict []),
       ("error_message", .vstr "")] "extracted_data").isSome = true :=
  claim_C7.2.2.2
    [("document", .vstr "Random document about something else"),
     ("classification", .vstr ""), ("extracted_data", .vdict []),
     ("error_message", .vstr "")] (by rfl)

end LGr
